import Mathlib

/-!
Verification of the device-monitor core of MediaSmartServerDeamon
(`src/device_monitor.cpp`, with its entry points in `src/mediasmartserverd.cpp`).

The embedding models one `DeviceMonitor` run. A udev device is reduced to the
topology data the monitor actually reads: its nearest `scsi_host` ancestor
(`udev_device_get_parent_with_subsystem_devtype(device, "scsi", "scsi_host")`),
that ancestor's sysnum (`udev_device_get_sysnum`, the trailing decimal number of
the sysname; `NULL` when absent, converted with `atoi` otherwise — modelled as
`Option Int`), the ancestor's immediate parent (`udev_device_get_parent`) and
that parent's subsystem string (`udev_device_get_subsystem`, may be `NULL`).

Observable behaviour is modelled explicitly: calls to the LED collaborator
(`leds_->Set(LED_BLUE, idx, state)`) become `IndicatorCall` values and the
`std::cout` trace lines become abstract `LogEvent` values (one constructor per
print site; the printed text itself is not modelled).  C++ exceptions
(`ErrnoException`) appear only in the monitor loop, as the `RunOutcome.error`
outcome; the topology resolver is a total function, mirroring the fact that
`getLedIndexForDevice_` cannot throw.
-/

namespace MediaSmart

/-- LED colour mask handed to `LedControl::Set`; `device_monitor.cpp` only ever
uses `LED_BLUE`. -/
inductive LedColor
  | blue
  | red
deriving DecidableEq

/-- One forwarded indicator command `leds_->Set(color, slot, state)`
(`slot` is the 0-based argument, i.e. `led_idx - 1`). -/
structure IndicatorCall where
  color : LedColor
  slot : Int
  state : Bool
deriving DecidableEq

/-- Abstract names for the `std::cout` sites of `device_monitor.cpp`, one
constructor per print statement that the modelled paths can reach. -/
inductive LogEvent
  | scsiHostInfo
  | sysnumInfo
  | parentInfo
  | subsystemInfo
  | deviceChangedInfo (added : Bool)
  | addedRemoved (added : Bool) (led_idx : Int)
  | actionInfo (action : String)
  | actionSyspath
  | ledIndexOfsInfo (ofs : Int)
  | exitingOnSignal
deriving DecidableEq

/-- Immediate parent of the `scsi_host` ancestor (`udev_device_get_parent`);
only its subsystem string is read (`udev_device_get_subsystem`, may be NULL). -/
structure ScsiHostParent where
  subsystem : Option String
deriving DecidableEq

/-- The nearest `scsi_host` ancestor: its sysnum (`udev_device_get_sysnum`,
NULL or a decimal string converted by `atoi` — modelled as `Option Int`) and
its immediate parent (`udev_device_get_parent`, may be NULL). -/
structure ScsiHost where
  sysnum : Option Int
  parent : Option ScsiHostParent
deriving DecidableEq

/-- A udev device as seen by the monitor: only its nearest ancestor matching
subsystem "scsi" / devtype "scsi_host" is ever consulted
(`udev_device_get_parent_with_subsystem_devtype`, may be NULL). -/
structure UdevDevice where
  scsi_host : Option ScsiHost
deriving DecidableEq

/-- Embeds `DeviceMonitor::getLedIndexForDevice_` (device_monitor.cpp 165-196).
Returns the signed LED index together with the debug trace it prints.
The C++ returns `int` and cannot throw; the embedding is a total function.
`dbg` and `verbose` are the global counters from mediasmartserverd.cpp. -/
def getLedIndexForDevice_ (dbg verbose : Nat) (led_index_ofs : Int)
    (device : UdevDevice) : Int × List LogEvent :=
  match device.scsi_host with
  | none => (0, [])
  | some scsi_host =>
    let logs1 : List LogEvent := if dbg ≠ 0 then [LogEvent.scsiHostInfo] else []
    match scsi_host.sysnum with
    | none => (0, logs1)
    | some sysnum =>
      let logs2 := logs1 ++ (if dbg ≠ 0 ∨ 1 < verbose then [LogEvent.sysnumInfo] else [])
      let led_idx : Int := sysnum - led_index_ofs + 1
      match scsi_host.parent with
      | none => (0, logs2)
      | some parent =>
        let logs3 := logs2 ++ (if dbg ≠ 0 then [LogEvent.parentInfo] else [])
        match parent.subsystem with
        | none => (led_idx, logs3)
        | some subsystem =>
          let logs4 := logs3 ++ (if dbg ≠ 0 then [LogEvent.subsystemInfo] else [])
          (if subsystem = "pci" then led_idx else -led_idx, logs4)

/-- Embeds `DeviceMonitor::deviceChanged_` (device_monitor.cpp 148-160).
`hasLeds` models whether the `leds_` pointer is non-null; the result is the
list of forwarded `Set` calls (empty or a singleton) plus the printed trace. -/
def deviceChanged_ (dbg verbose : Nat) (hasLeds : Bool) (led_index_ofs : Int)
    (device : UdevDevice) (state : Bool) (led_idx : Int) :
    List IndicatorCall × List LogEvent :=
  let logs0 : List LogEvent :=
    if dbg ≠ 0 ∨ 1 < verbose then [LogEvent.deviceChangedInfo state] else []
  let r : Int × List LogEvent :=
    if led_idx ≤ 0 then getLedIndexForDevice_ dbg verbose led_index_ofs device
    else (led_idx, [])
  if r.1 ≤ 0 then ([], logs0 ++ r.2)
  else
    ((if hasLeds then [IndicatorCall.mk LedColor.blue (r.1 - 1) state] else []),
      logs0 ++ r.2 ++ [LogEvent.addedRemoved state r.1])

/-- Case-insensitive string equality, embedding C `strcasecmp(a, b) == 0`:
the two strings compared character-wise after lowering, as `strcasecmp` does
with `tolower`. -/
def strcasecmpEq (a b : String) : Bool :=
  a.data.map Char.toLower == b.data.map Char.toLower

/-- One record read from the udev monitor socket: the device plus its action
string (`udev_device_get_action`, may be NULL). -/
structure Notification where
  device : UdevDevice
  action : Option String
deriving DecidableEq

/-- Modelled from the spec: the default value of the `led_idx` parameter of
`DeviceMonitor::deviceChanged_` is declared in `device_monitor.h`, which is not
part of the available sources. Per the spec's monitor-loop contract the live
path resolves the bay index anew ("resolve bay index via 4.1 using the current
offset"), so the default does not short-circuit the `led_idx <= 0` recompute:
it is 0. -/
def defaultLedIdx : Int := 0

/-- Embeds the notification branch of `DeviceMonitor::Main`
(device_monitor.cpp 115-130): a NULL action is silently dropped, "add" and
"remove" (case-insensitive) dispatch through `deviceAdded_` / `deviceRemove_`
to `deviceChanged_`, anything else is only printed in debug mode. -/
def handleNotification (dbg verbose : Nat) (hasLeds : Bool) (led_index_ofs : Int)
    (n : Notification) : List IndicatorCall × List LogEvent :=
  match n.action with
  | none => ([], [])
  | some a =>
    if strcasecmpEq a "add" then
      deviceChanged_ dbg verbose hasLeds led_index_ofs n.device true defaultLedIdx
    else if strcasecmpEq a "remove" then
      deviceChanged_ dbg verbose hasLeds led_index_ofs n.device false defaultLedIdx
    else
      ([], if dbg ≠ 0 then [LogEvent.actionInfo a, LogEvent.actionSyspath] else [])

/-- Linux errno value EINTR: a `pselect` call interrupted by a caught signal
fails with this errno. -/
def EINTR : Nat := 4

/-- One wake-up of the `pselect` wait in `DeviceMonitor::Main`: either the
monitor fd is readable and one notification is received, or the call failed
with the given errno. -/
inductive WaitResult
  | ready (n : Notification)
  | failed (errno : Nat)
deriving DecidableEq

/-- Delivery of one of the recognized termination signals (SIGINT/SIGTERM,
whose no-op handlers are installed by `init_signals` in mediasmartserverd.cpp)
during the wait makes `pselect` fail with errno EINTR. -/
def signalInterrupt : WaitResult := WaitResult.failed EINTR

/-- How a (finite prefix of a) `DeviceMonitor::Main` run ends. -/
inductive RunOutcome
  | finished
  | error (op : String)
  | pending
deriving DecidableEq

/-- Embeds the `while (true)` loop of `DeviceMonitor::Main`
(device_monitor.cpp 101-131), driven by a finite trace of wait results.
A failed wait with errno EINTR prints "Exiting on signal" and returns
(`RunOutcome.finished`); any other failure throws `ErrnoException("select")`
(`RunOutcome.error "select"`); a notification is handled and the loop
continues. `RunOutcome.pending` marks an exhausted trace (the real loop blocks
for the next event). With no timeout and a single fd, a non-negative `pselect`
result always has the monitor fd set, so `ready` carries a notification. -/
def monitorMain (dbg verbose : Nat) (hasLeds : Bool) (led_index_ofs : Int) :
    List WaitResult → RunOutcome × List IndicatorCall × List LogEvent
  | [] => (RunOutcome.pending, [], [])
  | WaitResult.failed e :: _ =>
    if e = EINTR then (RunOutcome.finished, [], [LogEvent.exitingOnSignal])
    else (RunOutcome.error "select", [], [])
  | WaitResult.ready n :: rest =>
    let h := handleNotification dbg verbose hasLeds led_index_ofs n
    let r := monitorMain dbg verbose hasLeds led_index_ofs rest
    (r.1, h.1 ++ r.2.1, h.2 ++ r.2.2)

/-- C `abs` on our `Int` model. -/
def cAbs (i : Int) : Int := if i < 0 then -i else i

/-- Embeds `scsi_devices.insert(std::make_pair(abs(led_idx), device))`
(device_monitor.cpp 235) on the strictly-ascending association list that
models `std::map<int, UdevDevicePtr>`: `std::map::insert` does nothing when
an element with the same key already exists. -/
def mapInsert (k : Int) (v : Option UdevDevice) :
    List (Int × Option UdevDevice) → List (Int × Option UdevDevice)
  | [] => [(k, v)]
  | (k2, v2) :: rest =>
    if k < k2 then (k, v) :: (k2, v2) :: rest
    else if k = k2 then (k2, v2) :: rest
    else (k2, v2) :: mapInsert k v rest

/-- Embeds the first loop of `DeviceMonitor::enumDevices_`
(device_monitor.cpp 215-236): resolve each enumerated device, drop index 0,
store a payload-less record (hole, `device.reset()`) for a negative index and
the device itself for a positive one, keyed by `abs(led_idx)`. The debug
prints of this loop and of the resolver are not observed by any claim and are
not collected here. -/
def enumCollect_ (dbg verbose : Nat) (led_index_ofs : Int) :
    List (Int × Option UdevDevice) → List UdevDevice →
    List (Int × Option UdevDevice)
  | acc, [] => acc
  | acc, d :: rest =>
    let led_idx := (getLedIndexForDevice_ dbg verbose led_index_ofs d).1
    if led_idx = 0 then enumCollect_ dbg verbose led_index_ofs acc rest
    else
      enumCollect_ dbg verbose led_index_ofs
        (mapInsert (cAbs led_idx) (if led_idx < 0 then none else some d) acc) rest

/-- Embeds the second loop of `DeviceMonitor::enumDevices_`
(device_monitor.cpp 238-250) over the collected ordered map: before the first
real device every hole overwrites `led_index_ofs_` with its key; from the
first real device on, holes are skipped and every device is emitted through
`deviceChanged_(device, true, key)`. Result: final `led_index_ofs_`, the
number of assignments to `led_index_ofs_` (a ghost counter for the temporal
claims), the forwarded indicator calls and the printed trace. -/
def enumEmit_ (dbg verbose : Nat) (hasLeds : Bool) (led_index_ofs : Int)
    (found_valid : Bool) :
    List (Int × Option UdevDevice) →
    Int × Nat × List IndicatorCall × List LogEvent
  | [] => (led_index_ofs, 0, [], [])
  | (k, none) :: rest =>
    if found_valid then enumEmit_ dbg verbose hasLeds led_index_ofs found_valid rest
    else
      let r := enumEmit_ dbg verbose hasLeds k found_valid rest
      (r.1, r.2.1 + 1, r.2.2)
  | (k, some d) :: rest =>
    let logs0 : List LogEvent :=
      if found_valid = false ∧ dbg ≠ 0 then [LogEvent.ledIndexOfsInfo led_index_ofs]
      else []
    let dc := deviceChanged_ dbg verbose hasLeds led_index_ofs d true k
    let r := enumEmit_ dbg verbose hasLeds led_index_ofs true rest
    (r.1, r.2.1, dc.1 ++ r.2.2.1, logs0 ++ dc.2 ++ r.2.2.2)

/-- Embeds `DeviceMonitor::enumDevices_` (device_monitor.cpp 200-251) as run
from `Init`: `led_index_ofs_` is 0 (constructor, line 52) throughout the
collection loop and entering the emit loop with `found_valid = false`. -/
def enumDevices_ (dbg verbose : Nat) (hasLeds : Bool)
    (devices : List UdevDevice) :
    Int × Nat × List IndicatorCall × List LogEvent :=
  enumEmit_ dbg verbose hasLeds 0 false (enumCollect_ dbg verbose 0 [] devices)

/-- Embeds one whole `DeviceMonitor` lifetime (`Init` then `Main`): startup
enumeration finalizes `led_index_ofs_`, then the live loop runs with that
value. Result: final offset, offset write count, startup indicator calls, and
the live loop's outcome/calls/trace. -/
def deviceMonitorRun (dbg verbose : Nat) (hasLeds : Bool)
    (devices : List UdevDevice) (trace : List WaitResult) :
    Int × Nat × List IndicatorCall ×
      (RunOutcome × List IndicatorCall × List LogEvent) :=
  let e := enumDevices_ dbg verbose hasLeds devices
  (e.1, e.2.1, e.2.2.1, monitorMain dbg verbose hasLeds e.1 trace)

/-- A device whose scsi_host ancestor has sysnum `n` and sits on a PCI parent:
the confirmed-internal shape. -/
def devPci (n : Int) : UdevDevice :=
  UdevDevice.mk (some (ScsiHost.mk (some n) (some (ScsiHostParent.mk (some "pci")))))

/-- A device whose scsi_host ancestor has sysnum `n` but whose parent reports
subsystem "usb": same bus numbering, not internal. -/
def devUsb (n : Int) : UdevDevice :=
  UdevDevice.mk (some (ScsiHost.mk (some n) (some (ScsiHostParent.mk (some "usb")))))

/-- The snapshot of spec section 8 / claim C2: holes at keys 1 and 2
(non-internal devices at sysnums 0 and 1) and real devices at keys 3, 4, 5
(internal devices at sysnums 2, 3, 4), as collected with offset 0. -/
def snapC2 : List (Int × Option UdevDevice) :=
  [(1, none), (2, none), (3, some (devPci 2)), (4, some (devPci 3)),
    (5, some (devPci 4))]

/-- A second snapshot used as a concrete instance: a hole at key 1, a real
device at key 2, a later hole at key 3 and a real device at key 4. -/
def snapMixed : List (Int × Option UdevDevice) :=
  [(1, none), (2, some (devPci 1)), (3, none), (4, some (devPci 3))]

/-- With `found_valid` already true the emit loop never assigns
`led_index_ofs_` again: its final value is the incoming one. -/
theorem enumEmit_found_ofs (dbg lv : Nat) (hl : Bool) :
    ∀ (l : List (Int × Option UdevDevice)) (i : Int),
      (enumEmit_ dbg lv hl i true l).1 = i := by
  intro l
  induction l with
  | nil => intro i; rfl
  | cons p rest ih =>
    intro i
    obtain ⟨k, o⟩ := p
    cases o with
    | none => simpa [enumEmit_] using ih i
    | some d => simp [enumEmit_, ih i]

/-- With `found_valid` already true the emit loop performs no writes to
`led_index_ofs_`. -/
theorem enumEmit_found_writes (dbg lv : Nat) (hl : Bool) :
    ∀ (l : List (Int × Option UdevDevice)) (i : Int),
      (enumEmit_ dbg lv hl i true l).2.1 = 0 := by
  intro l
  induction l with
  | nil => intro i; rfl
  | cons p rest ih =>
    intro i
    obtain ⟨k, o⟩ := p
    cases o with
    | none => simpa [enumEmit_] using ih i
    | some d => simp [enumEmit_, ih i]

/-- Entering the emit loop before any real device has been seen, the number of
writes to `led_index_ofs_` is the number of holes preceding the first real
device. -/
theorem enumEmit_writes (dbg lv : Nat) (hl : Bool) :
    ∀ (l : List (Int × Option UdevDevice)) (i : Int),
      (enumEmit_ dbg lv hl i false l).2.1
        = (l.takeWhile fun p => p.2.isNone).length := by
  intro l
  induction l with
  | nil => intro i; rfl
  | cons p rest ih =>
    intro i
    obtain ⟨k, o⟩ := p
    cases o with
    | none => simp [enumEmit_, List.takeWhile_cons, ih k]
    | some d =>
      simp [enumEmit_, List.takeWhile_cons, enumEmit_found_writes dbg lv hl rest i]

/-- C1: the spec claims that a device whose host adapter has a slot number but
no accessible parent resolves to the positive candidate; in the code
(device_monitor.cpp 180-181) a missing `scsi_host` parent returns 0, and only
a present parent with an absent subsystem string returns the candidate
(line 187). Amended statement: an absent parent subsystem yields the candidate
`sysnum - offset + 1` as-is, an absent parent yields 0; `getLedIndexForDevice_`
is total, so neither case can throw. -/
theorem resolve_shallow_topology (dbg lv : Nat) (ofs n : Int) :
    (getLedIndexForDevice_ dbg lv ofs
      (UdevDevice.mk (some (ScsiHost.mk (some n) none)))).1 = 0 ∧
    (getLedIndexForDevice_ dbg lv ofs
      (UdevDevice.mk (some (ScsiHost.mk (some n)
        (some (ScsiHostParent.mk none)))))).1 = n - ofs + 1 :=
  ⟨rfl, rfl⟩

/-- C1 counterexample: a device whose `scsi_host` has sysnum 4 but no parent
resolves to 0, not to the candidate 5 the claim promises; and with offset 2 a
device whose parent lacks a subsystem gets the candidate -1, which is not
positive. -/
theorem resolve_shallow_claim_cex :
    (getLedIndexForDevice_ 0 0 0
      (UdevDevice.mk (some (ScsiHost.mk (some 4) none)))).1 = 0 ∧
    ((0 : Int) ≠ 4 - 0 + 1) ∧
    (getLedIndexForDevice_ 0 0 2
      (UdevDevice.mk (some (ScsiHost.mk (some 0)
        (some (ScsiHostParent.mk none)))))).1 = 0 - 2 + 1 ∧
    ¬ (0 < (0 - 2 + 1 : Int)) := by
  refine ⟨rfl, by decide, rfl, by decide⟩

/-- C5: for a device whose host adapter has a slot number and whose parent
reports a subsystem, `getLedIndexForDevice_` returns `sysnum - offset + 1`
when that subsystem is "pci" and the negation of the same quantity otherwise
(device_monitor.cpp 192-195); the "pci" result is positive whenever
`offset ≤ sysnum` (amended: the claim's unconditional positivity fails when
the offset exceeds the slot number). -/
theorem resolve_transport_sign (dbg lv : Nat) (ofs n : Int) (subsys : String) :
    (getLedIndexForDevice_ dbg lv ofs
      (UdevDevice.mk (some (ScsiHost.mk (some n)
        (some (ScsiHostParent.mk (some subsys))))))).1
      = (if subsys = "pci" then n - ofs + 1 else -(n - ofs + 1)) ∧
    (subsys = "pci" → ofs ≤ n →
      0 < (getLedIndexForDevice_ dbg lv ofs
        (UdevDevice.mk (some (ScsiHost.mk (some n)
          (some (ScsiHostParent.mk (some subsys))))))).1) := by
  have h1 : (getLedIndexForDevice_ dbg lv ofs
      (UdevDevice.mk (some (ScsiHost.mk (some n)
        (some (ScsiHostParent.mk (some subsys))))))).1
      = (if subsys = "pci" then n - ofs + 1 else -(n - ofs + 1)) := rfl
  refine ⟨h1, fun hs hle => ?_⟩
  rw [h1, if_pos hs]
  omega

/-- C5 witness: a PCI-attached host at sysnum 3 with offset 0 resolves to the
positive index 4. -/
theorem resolve_transport_sign_witness :
    ("pci" = "pci" ∧ (0 : Int) ≤ 3) ∧
    0 < (getLedIndexForDevice_ 0 0 0
      (UdevDevice.mk (some (ScsiHost.mk (some 3)
        (some (ScsiHostParent.mk (some "pci"))))))).1 :=
  ⟨⟨rfl, by decide⟩,
    (resolve_transport_sign 0 0 0 3 "pci").2 rfl (by decide)⟩

/-- C5 counterexample: with offset 2 the PCI-attached host at sysnum 0
resolves to -1 = 0 - 2 + 1, so the claimed "positive value" is not positive. -/
theorem resolve_transport_cex :
    (getLedIndexForDevice_ 0 0 2 (devPci 0)).1 = -1 ∧ ¬ (0 < (-1 : Int)) := by
  refine ⟨rfl, by decide⟩

/-- C7: a device with no `scsi_host` ancestor resolves to 0
(device_monitor.cpp 167-168), and so does a device whose `scsi_host` ancestor
has no sysnum (lines 173-174), whatever that ancestor's parent looks like;
`getLedIndexForDevice_` is total, so no error is raised. -/
theorem resolve_unresolvable_zero (dbg lv : Nat) (ofs : Int)
    (p : Option ScsiHostParent) :
    (getLedIndexForDevice_ dbg lv ofs (UdevDevice.mk none)).1 = 0 ∧
    (getLedIndexForDevice_ dbg lv ofs
      (UdevDevice.mk (some (ScsiHost.mk none p)))).1 = 0 :=
  ⟨rfl, rfl⟩

/-- C10: a live notification whose device reports no action string is dropped
before anything happens (device_monitor.cpp 119: `if ( !str ) {}`): no
indicator call, no log output even with debug or verbosity enabled (so in
particular no resolver debug trace — the resolver is never consulted), and
the monitor loop state is exactly as if the event had not occurred. -/
theorem absent_action_ignored (dbg lv : Nat) (hl : Bool) (ofs : Int)
    (d : UdevDevice) (rest : List WaitResult) :
    handleNotification dbg lv hl ofs (Notification.mk d none) = ([], []) ∧
    monitorMain dbg lv hl ofs (WaitResult.ready (Notification.mk d none) :: rest)
      = monitorMain dbg lv hl ofs rest :=
  ⟨rfl, rfl⟩

/-- C8: a wait ending with errno EINTR — the effect of a recognized
termination signal (SIGINT/SIGTERM, handlers installed by `init_signals`)
arriving during `pselect` — makes `Main` return cleanly, whatever follows in
the trace; a wait failing with any other errno raises
`ErrnoException("select")`, carrying the failed operation's name
(device_monitor.cpp 108-112). -/
theorem main_wait_outcomes (dbg lv : Nat) (hl : Bool) (ofs : Int) (e : Nat)
    (rest : List WaitResult) (he : e ≠ EINTR) :
    (monitorMain dbg lv hl ofs (signalInterrupt :: rest)).1
      = RunOutcome.finished ∧
    (monitorMain dbg lv hl ofs (WaitResult.failed e :: rest)).1
      = RunOutcome.error "select" := by
  constructor
  · simp [monitorMain, signalInterrupt]
  · simp [monitorMain, he]

/-- C8 witness: errno 5 (EIO) is not EINTR; a signal-interrupted wait ends the
run cleanly and an EIO-failed wait surfaces the "select" failure. -/
theorem main_wait_outcomes_witness :
    (5 ≠ EINTR) ∧
    (monitorMain 0 0 true 0 [signalInterrupt]).1 = RunOutcome.finished ∧
    (monitorMain 0 0 true 0 [WaitResult.failed 5]).1
      = RunOutcome.error "select" :=
  ⟨by decide, main_wait_outcomes 0 0 true 0 5 [] (by decide)⟩

/-- C2: over the snapshot with holes at keys 1, 2 and real devices at keys
3, 4, 5 and offset starting at 0, startup enumeration sets the offset to 2 and
emits "added" events in ascending order — but with the original keys 3, 4, 5
as bay indices (the emit loop passes `it->first` to `deviceChanged_`,
device_monitor.cpp 249, so no re-basing happens; amended from the claim's
re-based 1, 2, 3). The forwarded calls are `Set(blue, key - 1, true)`. -/
theorem enum_snapshot_holes12 :
    (enumEmit_ 0 0 true 0 false snapC2).1 = 2 ∧
    (enumEmit_ 0 0 true 0 false snapC2).2.2.1
      = [IndicatorCall.mk LedColor.blue 2 true,
          IndicatorCall.mk LedColor.blue 3 true,
          IndicatorCall.mk LedColor.blue 4 true] ∧
    ((enumEmit_ 0 0 true 0 false snapC2).2.2.1.map fun c => c.slot + 1)
      = [3, 4, 5] :=
  ⟨rfl, rfl, rfl⟩

/-- C2 counterexample: on that same snapshot the emitted bay indices are
3, 4, 5, not the re-based 1, 2, 3 the claim states. -/
theorem enum_rebase_cex :
    (enumEmit_ 0 0 true 0 false snapC2).1 = 2 ∧
    ((enumEmit_ 0 0 true 0 false snapC2).2.2.1.map fun c => c.slot + 1)
      = [3, 4, 5] ∧
    ((enumEmit_ 0 0 true 0 false snapC2).2.2.1.map fun c => c.slot + 1)
      ≠ [1, 2, 3] := by
  refine ⟨rfl, rfl, by decide⟩

/-- C9: amended write discipline of `led_index_ofs_`. It starts at 0 and is
assigned only inside the startup emit loop, once per hole preceding the first
real device — zero or several times, not "exactly once" (the write count over
a list whose hole-prefix has length w is w); once the first real device is
seen no further write happens; and the live loop runs with the
enumeration-final value (in `deviceMonitorRun`, `monitorMain` receives exactly
`(enumDevices_ ...).1` and never modifies it). -/
theorem offset_write_discipline (dbg lv : Nat) (hl : Bool) (i : Int)
    (l : List (Int × Option UdevDevice)) (devices : List UdevDevice)
    (trace : List WaitResult) :
    (enumEmit_ dbg lv hl i false l).2.1
      = (l.takeWhile fun p => p.2.isNone).length ∧
    (enumEmit_ dbg lv hl i true l).2.1 = 0 ∧
    (deviceMonitorRun dbg lv hl devices trace).2.2.2
      = monitorMain dbg lv hl (enumDevices_ dbg lv hl devices).1 trace :=
  ⟨enumEmit_writes dbg lv hl l i, enumEmit_found_writes dbg lv hl l i, rfl⟩

/-- C9 counterexample: on the snapshot with holes at keys 1 and 2 before the
first real device, `led_index_ofs_` is written twice (0 → 1 → 2), not exactly
once. -/
theorem offset_single_write_cex :
    (enumEmit_ 0 0 true 0 false snapC2).2.1 = 2 ∧ (2 : Nat) ≠ 1 := by
  refine ⟨rfl, by decide⟩

/-- C3 counterexample: two enumerated devices on sysnum 2 — first a
USB-attached one (retained as the hole (3, none)), then a PCI-attached one
(resolving to +3) — leave the map at `[(3, none)]`: `std::map::insert` keeps
the earlier record, so the later insert for the same key does not replace it,
contradicting the claim's last-write-wins. -/
theorem enum_duplicate_key_cex :
    enumCollect_ 0 0 0 [] [devUsb 2, devPci 2] = [(3, none)] ∧
    ([(3, (none : Option UdevDevice))] ≠ [(3, some (devPci 2))]) := by
  refine ⟨rfl, by decide⟩

/-- C3: the claim says a later record with an already-present |bay index| key
replaces the earlier one; `std::map::insert` (device_monitor.cpp 235) in fact
keeps the earlier element. Amended statement: inserting a key already present
in the (strictly ascending) map leaves the map unchanged — the first write for
a key wins. -/
theorem mapInsert_first_wins (k : Int) (v : Option UdevDevice)
    (m : List (Int × Option UdevDevice))
    (hsort : m.Pairwise (fun a b => a.1 < b.1))
    (hmem : k ∈ m.map Prod.fst) :
    mapInsert k v m = m := by
  induction m with
  | nil => simp at hmem
  | cons p rest ih =>
    obtain ⟨k2, v2⟩ := p
    rw [List.pairwise_cons] at hsort
    simp only [List.map_cons, List.mem_cons] at hmem
    by_cases hk : k = k2
    · subst hk
      simp [mapInsert]
    · have hkr : k ∈ rest.map Prod.fst := hmem.resolve_left hk
      have h2 : k2 < k := by
        obtain ⟨q, hq, hqk⟩ := List.mem_map.mp hkr
        have := hsort.1 q hq
        omega
      have h3 : ¬ k < k2 := by omega
      simp only [mapInsert]
      rw [if_neg h3, if_neg hk, ih hsort.2 hkr]

/-- C3 witness: re-inserting key 4 into the two-element map keeps the map as
it was. -/
theorem mapInsert_first_wins_witness :
    (([(2, (none : Option UdevDevice)), (4, some (devPci 3))]).Pairwise
        (fun a b => a.1 < b.1) ∧
      (4 : Int) ∈ ([(2, (none : Option UdevDevice)),
        (4, some (devPci 3))]).map Prod.fst) ∧
    mapInsert 4 none [(2, (none : Option UdevDevice)), (4, some (devPci 3))]
      = [(2, (none : Option UdevDevice)), (4, some (devPci 3))] :=
  ⟨⟨by decide, by decide⟩,
    mapInsert_first_wins 4 none _ (by decide) (by decide)⟩

/-- Entering the emit loop before any real device has been seen, over a map
with strictly ascending keys: if no hole precedes the first real device the
offset keeps its incoming value, and otherwise the final offset is one of the
hole keys preceding the first real device and an upper bound of all of them —
the highest-numbered such hole. -/
theorem enumEmit_ofs_spec (dbg lv : Nat) (hl : Bool) :
    ∀ (l : List (Int × Option UdevDevice)) (i : Int),
      l.Pairwise (fun a b => a.1 < b.1) →
      ((l.takeWhile fun p => p.2.isNone) = [] →
        (enumEmit_ dbg lv hl i false l).1 = i) ∧
      (((l.takeWhile fun p => p.2.isNone).map Prod.fst) ≠ [] →
        (enumEmit_ dbg lv hl i false l).1
            ∈ ((l.takeWhile fun p => p.2.isNone).map Prod.fst) ∧
          ∀ k ∈ ((l.takeWhile fun p => p.2.isNone).map Prod.fst),
            k ≤ (enumEmit_ dbg lv hl i false l).1) := by
  intro l
  induction l with
  | nil =>
    intro i _
    exact ⟨fun _ => rfl, fun h => absurd rfl h⟩
  | cons p rest ih =>
    intro i hsort
    rw [List.pairwise_cons] at hsort
    obtain ⟨k, o⟩ := p
    cases o with
    | some d =>
      constructor
      · intro _
        simp only [enumEmit_]
        exact enumEmit_found_ofs dbg lv hl rest i
      · intro hne
        exact absurd (by simp [List.takeWhile_cons]) hne
    | none =>
      have htw : (((k, (none : Option UdevDevice)) :: rest).takeWhile
            fun p => p.2.isNone)
          = (k, none) :: (rest.takeWhile fun p => p.2.isNone) := by
        simp [List.takeWhile_cons]
      have hofs : (enumEmit_ dbg lv hl i false ((k, none) :: rest)).1
          = (enumEmit_ dbg lv hl k false rest).1 := by
        simp [enumEmit_]
      constructor
      · intro h
        rw [htw] at h
        exact absurd h (by simp)
      · intro _
        rcases h0 : (rest.takeWhile fun p => p.2.isNone) with _ | ⟨q, tl⟩
        · have h1 : (enumEmit_ dbg lv hl k false rest).1 = k :=
            (ih k hsort.2).1 h0
          rw [htw, h0, hofs, h1]
          refine ⟨by simp, ?_⟩
          intro x hx
          simp at hx
          omega
        · have hne2 : ((rest.takeWhile fun p => p.2.isNone).map Prod.fst)
              ≠ [] := by
            rw [h0]; simp
          obtain ⟨hmem, hbound⟩ := (ih k hsort.2).2 hne2
          rw [htw, hofs]
          constructor
          · simp only [List.map_cons, List.mem_cons]
            exact Or.inr hmem
          · intro x hx
            simp only [List.map_cons, List.mem_cons] at hx
            rcases hx with hx | hx
            · subst hx
              obtain ⟨q2, hq2, hq2k⟩ := List.mem_map.mp hmem
              have hq2r : q2 ∈ rest :=
                List.takeWhile_subset (fun p => p.2.isNone) hq2
              have := hsort.1 q2 hq2r
              omega
            · exact hbound x hx

/-- The emit loop hands a key `k ≥ 1` straight to `deviceChanged_`, which then
skips the resolver (`led_idx <= 0` is false) and forwards exactly
`Set(LED_BLUE, k - 1, state)`. -/
theorem deviceChanged_pos_calls (dbg lv : Nat) (ofs : Int) (d : UdevDevice)
    (st : Bool) (k : Int) (hk : 1 ≤ k) :
    (deviceChanged_ dbg lv true ofs d st k).1
      = [IndicatorCall.mk LedColor.blue (k - 1) st] := by
  have h1 : ¬ (k ≤ 0) := by omega
  simp [deviceChanged_, h1]

/-- The emit loop forwards exactly one "added" indicator call per real-device
record, in list order, and none for holes — independently of the incoming
offset and of the `found_valid` flag. -/
theorem enumEmit_calls (dbg lv : Nat) :
    ∀ (l : List (Int × Option UdevDevice)) (i : Int) (b : Bool),
      (∀ p ∈ l, 1 ≤ p.1) →
      (enumEmit_ dbg lv true i b l).2.2.1
        = l.filterMap (fun p =>
            p.2.map fun _ => IndicatorCall.mk LedColor.blue (p.1 - 1) true) := by
  intro l
  induction l with
  | nil => intro i b _; rfl
  | cons p rest ih =>
    intro i b hpos
    obtain ⟨k, o⟩ := p
    have hk : 1 ≤ k := hpos (k, o) (List.mem_cons_self _ _)
    have hrest : ∀ q ∈ rest, 1 ≤ q.1 := fun q hq =>
      hpos q (List.mem_cons_of_mem _ hq)
    cases o with
    | none =>
      cases b with
      | true => simpa [enumEmit_, List.filterMap_cons] using ih i true hrest
      | false => simpa [enumEmit_, List.filterMap_cons] using ih k false hrest
    | some d =>
      simp [enumEmit_, List.filterMap_cons,
        deviceChanged_pos_calls dbg lv i d true k hk, ih i true hrest]

/-- C4: startup enumeration over a strictly-ascending snapshot whose keys are
at least 1 (every key is `abs` of a nonzero index). The final Bay Offset is 0
when no hole precedes the first real device, and otherwise is the
highest-numbered hole key preceding the first real device (it is one of those
keys and bounds them all); holes after the first real device neither write the
offset nor emit; and the emitted calls are exactly one `Set(blue, key-1, true)`
per real-device record, in ascending key order. -/
theorem enum_offset_and_events (dbg lv : Nat)
    (l : List (Int × Option UdevDevice))
    (hsort : l.Pairwise (fun a b => a.1 < b.1))
    (hpos : ∀ p ∈ l, 1 ≤ p.1) :
    ((l.takeWhile fun p => p.2.isNone) = [] →
      (enumEmit_ dbg lv true 0 false l).1 = 0) ∧
    (((l.takeWhile fun p => p.2.isNone).map Prod.fst) ≠ [] →
      (enumEmit_ dbg lv true 0 false l).1
          ∈ ((l.takeWhile fun p => p.2.isNone).map Prod.fst) ∧
        ∀ k ∈ ((l.takeWhile fun p => p.2.isNone).map Prod.fst),
          k ≤ (enumEmit_ dbg lv true 0 false l).1) ∧
    (enumEmit_ dbg lv true 0 false l).2.2.1
      = l.filterMap (fun p =>
          p.2.map fun _ => IndicatorCall.mk LedColor.blue (p.1 - 1) true) :=
  ⟨(enumEmit_ofs_spec dbg lv true l 0 hsort).1,
    (enumEmit_ofs_spec dbg lv true l 0 hsort).2,
    enumEmit_calls dbg lv l 0 false hpos⟩

/-- C4 witness: on `snapMixed` (hole 1, device 2, hole 3, device 4) the offset
ends at 1 — the only hole before the first real device — and exactly the two
devices are emitted, while the hole at key 3 changes nothing. -/
theorem enum_offset_and_events_witness :
    (snapMixed.Pairwise (fun a b => a.1 < b.1) ∧ ∀ p ∈ snapMixed, 1 ≤ p.1) ∧
    (((snapMixed.takeWhile fun p => p.2.isNone) = [] →
      (enumEmit_ 0 0 true 0 false snapMixed).1 = 0) ∧
    (((snapMixed.takeWhile fun p => p.2.isNone).map Prod.fst) ≠ [] →
      (enumEmit_ 0 0 true 0 false snapMixed).1
          ∈ ((snapMixed.takeWhile fun p => p.2.isNone).map Prod.fst) ∧
        ∀ k ∈ ((snapMixed.takeWhile fun p => p.2.isNone).map Prod.fst),
          k ≤ (enumEmit_ 0 0 true 0 false snapMixed).1) ∧
    (enumEmit_ 0 0 true 0 false snapMixed).2.2.1
      = snapMixed.filterMap (fun p =>
          p.2.map fun _ => IndicatorCall.mk LedColor.blue (p.1 - 1) true)) :=
  ⟨⟨by decide, by decide⟩,
    enum_offset_and_events 0 0 snapMixed (by decide) (by decide)⟩

/-- Dispatch of a live event through `deviceChanged_` with the default
`led_idx` 0: the resolver runs, a non-positive index forwards nothing, a
positive index forwards one `Set(blue, index - 1, state)` call when the LED
collaborator is present. -/
theorem deviceChanged_live (dbg lv : Nat) (hl : Bool) (ofs : Int)
    (d : UdevDevice) (st : Bool) :
    (0 < (getLedIndexForDevice_ dbg lv ofs d).1 →
      (deviceChanged_ dbg lv hl ofs d st defaultLedIdx).1
        = if hl then
            [IndicatorCall.mk LedColor.blue
              ((getLedIndexForDevice_ dbg lv ofs d).1 - 1) st]
          else []) ∧
    ((getLedIndexForDevice_ dbg lv ofs d).1 ≤ 0 →
      (deviceChanged_ dbg lv hl ofs d st defaultLedIdx).1 = []) := by
  constructor
  · intro hpos
    have hne : ¬ (getLedIndexForDevice_ dbg lv ofs d).1 ≤ 0 := by omega
    simp [deviceChanged_, defaultLedIdx, hne]
  · intro hle
    simp [deviceChanged_, defaultLedIdx, hle]

/-- C6: a live notification whose action is "add" or "remove"
(case-insensitive) and whose device resolves to bay index N > 0 forwards
exactly one indicator call `Set(blue, N-1, state)` with state true for add
and false for remove; a device resolving to N ≤ 0 forwards nothing
(device_monitor.cpp 118-123 and 148-159, with the LED collaborator present). -/
theorem live_dispatch_forwards (dbg lv : Nat) (ofs : Int) (d : UdevDevice)
    (a : String)
    (ha : strcasecmpEq a "add" = true ∨ strcasecmpEq a "remove" = true) :
    (0 < (getLedIndexForDevice_ dbg lv ofs d).1 →
      (handleNotification dbg lv true ofs (Notification.mk d (some a))).1
        = [IndicatorCall.mk LedColor.blue
            ((getLedIndexForDevice_ dbg lv ofs d).1 - 1)
            (strcasecmpEq a "add")]) ∧
    ((getLedIndexForDevice_ dbg lv ofs d).1 ≤ 0 →
      (handleNotification dbg lv true ofs (Notification.mk d (some a))).1
        = []) := by
  rcases ha with h | h
  · constructor
    · intro hpos
      simp only [handleNotification, h, if_true]
      simpa using (deviceChanged_live dbg lv true ofs d true).1 hpos
    · intro hle
      simp only [handleNotification, h, if_true]
      exact (deviceChanged_live dbg lv true ofs d true).2 hle
  · have h2 : a.data.map Char.toLower = "remove".data.map Char.toLower := by
      simpa [strcasecmpEq] using h
    have hna : strcasecmpEq a "add" = false := by
      simp [strcasecmpEq, h2]
    constructor
    · intro hpos
      simp only [handleNotification, hna, Bool.false_eq_true, if_false, h,
        if_true]
      simpa using (deviceChanged_live dbg lv true ofs d false).1 hpos
    · intro hle
      simp only [handleNotification, hna, Bool.false_eq_true, if_false, h,
        if_true]
      exact (deviceChanged_live dbg lv true ofs d false).2 hle

/-- C6 witness: the live notification "Add" (mixed case) for the PCI device at
sysnum 0 with offset 0 resolves to bay 1 and forwards exactly
`Set(blue, 0, true)`. -/
theorem live_dispatch_forwards_witness :
    (strcasecmpEq "Add" "add" = true ∨ strcasecmpEq "Add" "remove" = true) ∧
    0 < (getLedIndexForDevice_ 0 0 0 (devPci 0)).1 ∧
    (handleNotification 0 0 true 0
        (Notification.mk (devPci 0) (some "Add"))).1
      = [IndicatorCall.mk LedColor.blue
          ((getLedIndexForDevice_ 0 0 0 (devPci 0)).1 - 1)
          (strcasecmpEq "Add" "add")] :=
  ⟨Or.inl (by decide), by decide,
    (live_dispatch_forwards 0 0 0 (devPci 0) "Add"
      (Or.inl (by decide))).1 (by decide)⟩

end MediaSmart
